import Mathlib

/-!
Shallow embedding of the MCP client correlation engine from
`src/client/mod.rs` (crate `mcp_client_rust`), together with proofs of the
specification's testable properties.

The embedding models:
* the message envelope model (Request / Response / Notification and the
  numeric `RequestId`), parametric over an abstract structured-value type `V`
  standing for `serde_json::Value`;
* the error taxonomy of the crate's `Error` enum, restricted to the variants
  the client module constructs;
* `Client::request` as a pure function of the client state, the transport
  send outcome, and the timed sequence of events observed on the internal
  queue while the call waits (message arrivals and channel closure);
* `Client::initialize`, `Client::notify`, `Client::capabilities` and the RPC
  facade operations (`call_tool`, `list_tools`, `get_tool`, `read_resource`,
  `list_resources`) as pure state-passing functions.

Serde encoding/decoding and the concrete schema types live outside the
analysed source file; they are modelled abstractly (decoders are function
parameters, schema structures keep only the fields the client module reads).
-/

namespace MCPClient

/-- Request identifier. The source uses `RequestId::Number(i64)`; the spec
assumes the 64-bit signed range is never exhausted ("No wraparound handling
is specified"), so the counter is modelled as an unbounded integer. -/
abbrev RequestId := Int

/-- The error object carried inside a JSON-RPC error response:
`{code, message, data}`. -/
structure ErrorObject (V : Type) where
  code : Int
  message : String
  data : Option V
deriving Repr, DecidableEq

/-- A request envelope: `{method, params, id}` (`protocol::Request`). -/
structure Request (V : Type) where
  method : String
  params : Option V
  id : RequestId
deriving Repr, DecidableEq

/-- A response envelope: `{id, result, error}` (`protocol::Response`). -/
structure Response (V : Type) where
  id : RequestId
  result : Option V
  error : Option (ErrorObject V)
deriving Repr, DecidableEq

/-- A notification envelope: `{method, params}` (`protocol::Notification`). -/
structure Notification (V : Type) where
  method : String
  params : Option V
deriving Repr, DecidableEq

/-- The wire envelope sum type `transport::Message`. -/
inductive Message (V : Type) where
  | request (r : Request V)
  | response (r : Response V)
  | notification (n : Notification V)
deriving Repr, DecidableEq

/-- The client-visible error taxonomy, covering the `Error` variants the
client module constructs: `Error::Protocol {code, message, data}`,
transport send/close failures, serde failures (`Error::from` on
`serde_json::Error`), and `Error::Other(String)`. -/
inductive Error (V : Type) where
  | Protocol (code : Int) (message : String) (data : Option V)
  | Transport (message : String)
  | Serde (message : String)
  | Other (message : String)
deriving Repr, DecidableEq

/-- Modelled from the spec: the crate's `error::ErrorCode::InternalError`
(the error module is not part of the analysed source). The JSON-RPC
internal-error code; the claims depend only on it being a fixed code used
for the two internal failures of `request`. -/
def internalErrorCode : Int := -32603

/-- The fixed per-request deadline, in seconds:
`tokio::time::timeout(Duration::from_secs(30), ...)`. -/
def requestTimeoutSecs : Nat := 30

/-- The timeout error message:
`format!("Request to '{method}' timed out after 30 seconds")`. -/
def timeoutMessage (method : String) : String :=
  "Request to '" ++ method ++ "' timed out after 30 seconds"

/-- The internal error returned when the queue closes while a call waits:
`Error::protocol(ErrorCode::InternalError, "Connection closed while waiting
for response")`. -/
def connectionClosedError (V : Type) : Error V :=
  .Protocol internalErrorCode "Connection closed while waiting for response" none

/-- The internal error returned on a matching response with neither field:
`Error::protocol(ErrorCode::InternalError, "Response missing result")`. -/
def missingResultError (V : Type) : Error V :=
  .Protocol internalErrorCode "Response missing result" none

/-- One event observed on the internal queue while a `request` call is
waiting: either a message arrival at time `t` (seconds since the wait
began), or closure of the channel at time `t` (the ingress pump terminated
and the queue drained). -/
inductive QEvent (V : Type) where
  | arrive (t : Nat) (m : Message V)
  | close (t : Nat)
deriving Repr, DecidableEq

/-- How the consumption loop of `Client::request` handles one popped
message, given the id this call is waiting for: a matching response
terminates the loop (error field first, then result, then the
missing-result failure); every other message — a response with a different
id, a notification, or a peer request — yields `none`, i.e. is discarded
and the loop continues. -/
def handleMessage {V : Type} (id : RequestId) (m : Message V) :
    Option (Except (Error V) V) :=
  match m with
  | .response r =>
    if r.id = id then
      some (match r.error with
        | some e => .error (.Protocol e.code e.message e.data)
        | none =>
          match r.result with
          | some v => .ok v
          | none => .error (missingResultError V))
    else none
  | .notification _ => none
  | .request _ => none

/-- The waiting phase of `Client::request`: the `while let Some(message) =
rx.recv()` loop wrapped in `tokio::time::timeout(30s, ...)`. Events are
consumed in arrival order; an event at or past the deadline means the
timeout fires first, as does exhausting the event list with the future
still pending; channel closure within the deadline produces the
connection-closed internal error. -/
def requestWait {V : Type} (method : String) (id : RequestId) :
    List (QEvent V) → Except (Error V) V
  | [] => .error (.Other (timeoutMessage method))
  | .arrive t m :: rest =>
    if t < requestTimeoutSecs then
      match handleMessage id m with
      | some r => r
      | none => requestWait method id rest
    else .error (.Other (timeoutMessage method))
  | .close t :: _ =>
    if t < requestTimeoutSecs then .error (connectionClosedError V)
    else .error (.Other (timeoutMessage method))

/-- The mutable state of a `Client` instance that the analysed operations
read or write: the request-id counter (`request_counter`) and the
capability cache (`server_capabilities`), with `C` the abstract
`ServerCapabilities` type. -/
structure ClientState (C : Type) where
  counter : Int
  serverCapabilities : Option C
deriving Repr, DecidableEq

/-- `Client::new`: counter starts at 0, capability cache starts empty. -/
def Client.new (C : Type) : ClientState C :=
  { counter := 0, serverCapabilities := none }

/-- The environment one `request` call interacts with: the outcome of the
transport send (`none` = success, `some e` = `transport.send` failed with
message `e`) and the timed events subsequently observed on the internal
queue. -/
structure ReqEnv (V : Type) where
  sendErr : Option String
  events : List (QEvent V)

/-- Outcome of one client operation: the state after the call, the
envelopes handed to `transport.send` in order, and the returned
`Result`. -/
structure CallResult (V C α : Type) where
  state : ClientState C
  sent : List (Message V)
  result : Except (Error V) α

/-- `Client::request`: increment the counter and take the new value as this
call's id, build the request envelope, send it (a send failure returns
immediately), then wait on the internal queue under the 30-second
deadline. -/
def Client.request {V C : Type} (st : ClientState C) (method : String)
    (params : Option V) (env : ReqEnv V) : CallResult V C V :=
  let counter := st.counter + 1
  let id : RequestId := counter
  let st' : ClientState C := { st with counter := counter }
  let req : Request V := { method := method, params := params, id := id }
  match env.sendErr with
  | some e => ⟨st', [Message.request req], .error (.Transport e)⟩
  | none => ⟨st', [Message.request req], requestWait method id env.events⟩

/-- `Client::notify`: build a notification envelope and send it; no id, no
response awaited; the only possible failure is the transport send error.
The method reads no client state, so the embedding is stateless. -/
def Client.notify {V : Type} (method : String) (params : Option V)
    (sendErr : Option String) : List (Message V) × Except (Error V) Unit :=
  ([Message.notification { method := method, params := params }],
    match sendErr with
    | some e => .error (.Transport e)
    | none => .ok ())

/-- `Client::capabilities`: a read of the capability cache. -/
def Client.capabilities {C : Type} (st : ClientState C) : Option C :=
  st.serverCapabilities

/-- `Client::shutdown`: closes the transport; reads no client state and
sends no protocol message. -/
def Client.shutdown (V : Type) (closeErr : Option String) :
    Except (Error V) Unit :=
  match closeErr with
  | some e => .error (.Transport e)
  | none => .ok ()

/-- Modelled from the spec: the handshake result (`types::InitializeResult`,
not part of the analysed source) — "an InitializeResult containing
negotiated ServerCapabilities". Only the `capabilities` field is read by the
client module. -/
structure InitializeResult (C : Type) where
  capabilities : C
deriving Repr, DecidableEq

/-- The environment one `initialize` call interacts with: the environment of
its inner `request`, and the send outcome of the trailing notification. -/
structure InitEnv (V : Type) where
  reqEnv : ReqEnv V
  notifySendErr : Option String

/-- `Client::initialize`: call `request("initialize", Some(params))`,
deserialize the result into an `InitializeResult` (`dec` models
`serde_json::from_value`; `none` = deserialization failure), store the
negotiated capabilities in the cache, then send the
`notifications/initialized` notification; any failure aborts the sequence
at that point and is propagated. The json encoding of
`{clientInfo, capabilities, protocolVersion}` is taken as the already-built
value `params`. -/
def Client.initializeHandshake {V C : Type} (st : ClientState C) (params : V)
    (dec : V → Option (InitializeResult C)) (env : InitEnv V) :
    CallResult V C (InitializeResult C) :=
  let r := Client.request st "initialize" (some params) env.reqEnv
  match r.result with
  | .error e => ⟨r.state, r.sent, .error e⟩
  | .ok v =>
    match dec v with
    | none => ⟨r.state, r.sent, .error (.Serde "invalid InitializeResult")⟩
    | some ir =>
      let st2 : ClientState C :=
        { r.state with serverCapabilities := some ir.capabilities }
      let n := Client.notify (V := V) "notifications/initialized" none
        env.notifySendErr
      match n.2 with
      | .error e => ⟨st2, r.sent ++ n.1, .error e⟩
      | .ok _ => ⟨st2, r.sent ++ n.1, .ok ir⟩

/-- Modelled from the spec: one content segment of a tool-call result
(`types::MessageContent`, not part of the analysed source). The client
module pattern-matches only the `Text { text }` variant; every other
variant is opaque here. -/
inductive MessageContent where
  | text (text : String)
  | other (tag : String)
deriving Repr, DecidableEq

/-- Modelled from the spec: `types::CallToolResult` (not part of the
analysed source) — a content list and the error flag `is_error`. -/
structure CallToolResult where
  content : List MessageContent
  is_error : Bool
deriving Repr, DecidableEq

/-- The textual content segments of a tool result, in original order:
`content.iter().filter_map(|msg| Text{text} => Some(text))`. -/
def textSegments (content : List MessageContent) : List String :=
  content.filterMap fun m =>
    match m with
    | .text t => some t
    | .other _ => none

/-- `Client::call_tool`: call `request("tools/call", Some(to_value(req)))`
(the serde encoding of `CallToolRequest {name, arguments}` is taken as the
already-built value `encodedArgs`), deserialize the result; if `is_error`
is set, fail with `Error::Other` carrying the newline-joined textual
segments; otherwise return the result. -/
def Client.call_tool {V C : Type} (st : ClientState C) (name : String)
    (encodedArgs : V) (dec : V → Option CallToolResult) (env : ReqEnv V) :
    CallResult V C CallToolResult :=
  let r := Client.request st "tools/call" (some encodedArgs) env
  match r.result with
  | .error e => ⟨r.state, r.sent, .error e⟩
  | .ok v =>
    match dec v with
    | none => ⟨r.state, r.sent, .error (.Serde "invalid CallToolResult")⟩
    | some tr =>
      if tr.is_error then
        ⟨r.state, r.sent, .error (.Other ("Tool '" ++ name
          ++ "' execution failed: "
          ++ String.intercalate "\n" (textSegments tr.content)))⟩
      else ⟨r.state, r.sent, .ok tr⟩

/-- Modelled from the spec: `types::Tool` (not part of the analysed
source); the client module reads only its name. -/
structure Tool where
  name : String
deriving Repr, DecidableEq

/-- Modelled from the spec: `types::ListToolsResult` (not part of the
analysed source). -/
structure ListToolsResult where
  tools : List Tool
deriving Repr, DecidableEq

/-- `Client::list_tools`: `request("tools/list", None)` then deserialize. -/
def Client.list_tools {V C : Type} (st : ClientState C)
    (dec : V → Option ListToolsResult) (env : ReqEnv V) :
    CallResult V C ListToolsResult :=
  let r := Client.request (V := V) st "tools/list" none env
  match r.result with
  | .error e => ⟨r.state, r.sent, .error e⟩
  | .ok v =>
    match dec v with
    | none => ⟨r.state, r.sent, .error (.Serde "invalid ListToolsResult")⟩
    | some lt => ⟨r.state, r.sent, .ok lt⟩

/-- `Client::get_tool`: call `list_tools` and search by name, returning
absence rather than failure when not found. -/
def Client.get_tool {V C : Type} (st : ClientState C) (name : String)
    (dec : V → Option ListToolsResult) (env : ReqEnv V) :
    CallResult V C (Option Tool) :=
  let r := Client.list_tools st dec env
  match r.result with
  | .error e => ⟨r.state, r.sent, .error e⟩
  | .ok lt => ⟨r.state, r.sent, .ok (lt.tools.find? fun t => t.name == name)⟩

/-- Modelled from the spec: `types::ReadResourceResult` (not part of the
analysed source); opaque to the client module. -/
structure ReadResourceResult where
  contents : List String
deriving Repr, DecidableEq

/-- `Client::read_resource`: `request("resources/read", Some({uri}))` then
deserialize; the json encoding of `{uri}` is taken as `encodedUri`. -/
def Client.read_resource {V C : Type} (st : ClientState C) (encodedUri : V)
    (dec : V → Option ReadResourceResult) (env : ReqEnv V) :
    CallResult V C ReadResourceResult :=
  let r := Client.request st "resources/read" (some encodedUri) env
  match r.result with
  | .error e => ⟨r.state, r.sent, .error e⟩
  | .ok v =>
    match dec v with
    | none => ⟨r.state, r.sent, .error (.Serde "invalid ReadResourceResult")⟩
    | some rr => ⟨r.state, r.sent, .ok rr⟩

/-- Modelled from the spec: `types::ListResourcesResult` (not part of the
analysed source); opaque to the client module. -/
structure ListResourcesResult where
  resources : List String
deriving Repr, DecidableEq

/-- `Client::list_resources`: `request("resources/list", None)` then
deserialize. -/
def Client.list_resources {V C : Type} (st : ClientState C)
    (dec : V → Option ListResourcesResult) (env : ReqEnv V) :
    CallResult V C ListResourcesResult :=
  let r := Client.request (V := V) st "resources/list" none env
  match r.result with
  | .error e => ⟨r.state, r.sent, .error e⟩
  | .ok v =>
    match dec v with
    | none =>
      ⟨r.state, r.sent, .error (.Serde "invalid ListResourcesResult")⟩
    | some rr => ⟨r.state, r.sent, .ok rr⟩

/-- One `request` call of a sequential scenario: its arguments and the
environment it observes. -/
structure ReqCall (V : Type) where
  method : String
  params : Option V
  env : ReqEnv V

/-- Run a sequence of `request` calls one after the other (no two
overlapping), threading the client state; returns the final state and, per
call, the envelopes it sent and its result. -/
def runRequests {V C : Type} (st : ClientState C) :
    List (ReqCall V) → ClientState C × List (List (Message V) × Except (Error V) V)
  | [] => (st, [])
  | c :: cs =>
    let r := Client.request st c.method c.params c.env
    let rest := runRequests r.state cs
    (rest.1, (r.sent, r.result) :: rest.2)

/-- The ids of the request envelopes handed to the transport across a list
of per-call send logs, in order. -/
def sentRequestIds {V : Type}
    (outs : List (List (Message V) × Except (Error V) V)) : List RequestId :=
  (outs.map fun o => o.1.filterMap fun m =>
    match m with
    | Message.request r => some r.id
    | _ => none).flatten

/-- A message is unrelated to the id a `request` call waits for when it is
a response bearing a different id, a notification, or a request received
from the peer — exactly the three discarded cases of the consumption
loop. -/
def UnrelatedTo {V : Type} (id : RequestId) : Message V → Prop
  | .response r => r.id ≠ id
  | .notification _ => True
  | .request _ => True

instance {V : Type} (id : RequestId) (m : Message V) :
    Decidable (UnrelatedTo id m) :=
  match m with
  | .response r => inferInstanceAs (Decidable (r.id ≠ id))
  | .notification _ => inferInstanceAs (Decidable True)
  | .request _ => inferInstanceAs (Decidable True)

/-- A queue event that a waiting `request` call observes and discards
without resolving: an arrival within the deadline of a message unrelated to
its id. -/
def DiscardableFor {V : Type} (id : RequestId) : QEvent V → Prop
  | .arrive t m => t < requestTimeoutSecs ∧ UnrelatedTo id m
  | .close _ => False

instance {V : Type} (id : RequestId) (e : QEvent V) :
    Decidable (DiscardableFor id e) :=
  match e with
  | .arrive t m =>
    inferInstanceAs (Decidable (t < requestTimeoutSecs ∧ UnrelatedTo id m))
  | .close _ => inferInstanceAs (Decidable False)

/-- A queue event that cannot resolve the wait for `id` before the
deadline: any arrival within the deadline is unrelated to `id`, and any
channel closure happens only at or past the deadline. -/
def NonResolvingFor {V : Type} (id : RequestId) : QEvent V → Prop
  | .arrive t m => t < requestTimeoutSecs → UnrelatedTo id m
  | .close t => requestTimeoutSecs ≤ t

instance {V : Type} (id : RequestId) (e : QEvent V) :
    Decidable (NonResolvingFor id e) :=
  match e with
  | .arrive t m =>
    inferInstanceAs (Decidable (t < requestTimeoutSecs → UnrelatedTo id m))
  | .close t => inferInstanceAs (Decidable (requestTimeoutSecs ≤ t))

/-- A call of a sequential scenario is matched when its send succeeds and
its queue events consist of discardable junk, then the response carrying
this call's id with result `v` within the deadline, then anything. -/
def MatchedCall {V : Type} (id : RequestId) (v : V) (c : ReqCall V) : Prop :=
  c.env.sendErr = none ∧
  ∃ pre t post,
    c.env.events =
      pre ++ QEvent.arrive t
        (Message.response { id := id, result := some v, error := none }) :: post ∧
    t < requestTimeoutSecs ∧
    ∀ e ∈ pre, DiscardableFor id e

theorem handleMessage_eq_none_of_unrelated {V : Type} {id : RequestId}
    {m : Message V} (h : UnrelatedTo id m) : handleMessage id m = none := by
  cases m with
  | response r =>
    simp only [UnrelatedTo] at h
    simp [handleMessage, h]
  | notification n => rfl
  | request r => rfl

/-- Draining skips any run of discardable junk and resolves at the first
message the loop handles, provided it arrives within the deadline. -/
theorem requestWait_first_match {V : Type} {method : String} {id : RequestId}
    {pre : List (QEvent V)} {t : Nat} {m : Message V} {post : List (QEvent V)}
    {res : Except (Error V) V}
    (hpre : ∀ e ∈ pre, DiscardableFor id e) (ht : t < requestTimeoutSecs)
    (hm : handleMessage id m = some res) :
    requestWait method id (pre ++ QEvent.arrive t m :: post) = res := by
  induction pre with
  | nil => simp [requestWait, ht, hm]
  | cons e es ih =>
    have he := hpre e (List.mem_cons_self e es)
    cases e with
    | arrive t' m' =>
      obtain ⟨ht', hu⟩ := he
      have hnone := handleMessage_eq_none_of_unrelated hu
      simpa [requestWait, ht', hnone] using
        ih fun x hx => hpre x (List.mem_cons_of_mem _ hx)
    | close t' => exact absurd he (by simp [DiscardableFor])

/-- Draining a list of events none of which can resolve the wait ends in
the timeout. -/
theorem requestWait_times_out {V : Type} {method : String} {id : RequestId}
    {events : List (QEvent V)}
    (h : ∀ e ∈ events, NonResolvingFor id e) :
    requestWait method id events = .error (.Other (timeoutMessage method)) := by
  induction events with
  | nil => rfl
  | cons e es ih =>
    have he := h e (List.mem_cons_self e es)
    cases e with
    | arrive t m =>
      by_cases ht : t < requestTimeoutSecs
      · have hnone := handleMessage_eq_none_of_unrelated (he ht)
        simpa [requestWait, ht, hnone] using
          ih fun x hx => h x (List.mem_cons_of_mem _ hx)
      · simp [requestWait, ht]
    | close t =>
      have ht : ¬ t < requestTimeoutSecs := by
        simpa [NonResolvingFor, Nat.not_lt] using he
      simp [requestWait, ht]

/-- The state `Client::request` leaves behind: the counter advanced by one,
everything else untouched — on every path, send failure included. -/
theorem request_state {V C : Type} (st : ClientState C) (method : String)
    (params : Option V) (env : ReqEnv V) :
    (Client.request st method params env).state =
      { st with counter := st.counter + 1 } := by
  cases h : env.sendErr <;> simp [Client.request, h]

/-- The envelopes `Client::request` hands to the transport: exactly its own
request envelope, bearing the freshly incremented counter as id. -/
theorem request_sent {V C : Type} (st : ClientState C) (method : String)
    (params : Option V) (env : ReqEnv V) :
    (Client.request st method params env).sent =
      [Message.request { method := method, params := params, id := st.counter + 1 }] := by
  cases h : env.sendErr <;> simp [Client.request, h]

/-- When the send succeeds, the result of `Client::request` is the result
of draining the queue for the fresh id. -/
theorem request_result_of_sendOk {V C : Type} (st : ClientState C)
    (method : String) (params : Option V) (env : ReqEnv V)
    (hsend : env.sendErr = none) :
    (Client.request st method params env).result =
      requestWait method (st.counter + 1) env.events := by
  simp [Client.request, hsend]

theorem runRequests_cons {V C : Type} (st : ClientState C) (c : ReqCall V)
    (cs : List (ReqCall V)) :
    runRequests st (c :: cs) =
      ((runRequests (Client.request st c.method c.params c.env).state cs).1,
        ((Client.request st c.method c.params c.env).sent,
          (Client.request st c.method c.params c.env).result) ::
          (runRequests (Client.request st c.method c.params c.env).state cs).2) :=
  rfl

/-- Across a sequential run, the ids on the wire are the consecutive
integers following the starting counter, one per call. -/
theorem runRequests_ids {V C : Type} (st : ClientState C)
    (calls : List (ReqCall V)) :
    sentRequestIds (runRequests st calls).2 =
      (List.range calls.length).map (fun k : Nat => st.counter + 1 + (k : Int)) := by
  induction calls generalizing st with
  | nil => rfl
  | cons c cs ih =>
    rw [runRequests_cons]
    have h1 := request_sent st c.method c.params c.env
    have h2 := request_state st c.method c.params c.env
    simp only [sentRequestIds, List.map_cons, List.flatten_cons, h1, h2] at ih ⊢
    rw [ih]
    simp only [List.filterMap_cons, List.filterMap_nil, List.length_cons]
    rw [List.range_succ_eq_map, List.map_cons, List.map_map]
    simp only [Nat.cast_zero, add_zero, List.nil_append, List.singleton_append]
    congr 1
    apply List.map_congr_left
    intro k _
    simp only [Function.comp_apply, Nat.cast_succ]
    ring

/-- C2: the RequestId values issued by one client instance are the strictly
increasing integers 1, 2, …, N — starting at 1, advancing by exactly one
per `request` call, with no id ever reused (pairwise distinct because
pairwise increasing). -/
theorem issued_ids_strictly_increasing_from_one {V C : Type}
    (calls : List (ReqCall V)) :
    sentRequestIds (runRequests (Client.new C) calls).2 =
      (List.range calls.length).map (fun k : Nat => (k : Int) + 1) ∧
    List.Pairwise (fun a b => a < b)
      (sentRequestIds (runRequests (V := V) (Client.new C) calls).2) := by
  have h := runRequests_ids (Client.new C) calls
  have hfun : (fun k : Nat => (Client.new C).counter + 1 + (k : Int)) =
      (fun k : Nat => (k : Int) + 1) := by
    funext k
    simp [Client.new]
    ring
  rw [hfun] at h
  refine ⟨h, ?_⟩
  rw [h]
  exact (List.pairwise_lt_range calls.length).map _
    fun a b hab => by
      show (a : Int) + 1 < (b : Int) + 1
      have : (a : Int) < b := by exact_mod_cast hab
      omega

/-- C8: every `request` call advances the counter by exactly one and
stamps the freshly incremented value as the id of the envelope it hands to
the transport — for every environment, hence also when the send fails and
when the call ends in a protocol, internal, or timeout error: the id is
permanently consumed. -/
theorem request_always_consumes_one_id {V C : Type} (st : ClientState C)
    (method : String) (params : Option V) (env : ReqEnv V) :
    (Client.request st method params env).state.counter = st.counter + 1 ∧
    (Client.request st method params env).sent =
      [Message.request { method := method, params := params, id := st.counter + 1 }] := by
  refine ⟨?_, request_sent st method params env⟩
  rw [request_state]

theorem call_tool_state {V C : Type} (st : ClientState C) (name : String)
    (args : V) (dec : V → Option CallToolResult) (env : ReqEnv V) :
    (Client.call_tool st name args dec env).state =
      (Client.request st "tools/call" (some args) env).state := by
  simp only [Client.call_tool]
  split
  · rfl
  · split
    · rfl
    · split <;> rfl

theorem list_tools_state {V C : Type} (st : ClientState C)
    (dec : V → Option ListToolsResult) (env : ReqEnv V) :
    (Client.list_tools st dec env).state =
      (Client.request (V := V) st "tools/list" none env).state := by
  simp only [Client.list_tools]
  split
  · rfl
  · split <;> rfl

theorem get_tool_state {V C : Type} (st : ClientState C) (name : String)
    (dec : V → Option ListToolsResult) (env : ReqEnv V) :
    (Client.get_tool st name dec env).state =
      (Client.request (V := V) st "tools/list" none env).state := by
  simp only [Client.get_tool]
  split <;> exact list_tools_state st dec env

theorem read_resource_state {V C : Type} (st : ClientState C) (uri : V)
    (dec : V → Option ReadResourceResult) (env : ReqEnv V) :
    (Client.read_resource st uri dec env).state =
      (Client.request st "resources/read" (some uri) env).state := by
  simp only [Client.read_resource]
  split
  · rfl
  · split <;> rfl

theorem list_resources_state {V C : Type} (st : ClientState C)
    (dec : V → Option ListResourcesResult) (env : ReqEnv V) :
    (Client.list_resources st dec env).state =
      (Client.request (V := V) st "resources/list" none env).state := by
  simp only [Client.list_resources]
  split
  · rfl
  · split <;> rfl

/-- C10: the capability cache is written only by `initialize`: `request`
and every RPC facade operation leave the cached value unchanged, on every
path through each operation. (`notify`, `capabilities` and `shutdown` read
no mutable client state at all in the embedding — their types take no
state — so they cannot write the cache either.) -/
theorem capability_cache_written_only_by_initialize {V C : Type}
    (st : ClientState C) (method : String) (params : Option V)
    (env : ReqEnv V) (name : String) (args uri : V)
    (decT : V → Option CallToolResult) (decL : V → Option ListToolsResult)
    (decR : V → Option ReadResourceResult)
    (decS : V → Option ListResourcesResult) :
    (Client.request st method params env).state.serverCapabilities =
      st.serverCapabilities ∧
    (Client.call_tool st name args decT env).state.serverCapabilities =
      st.serverCapabilities ∧
    (Client.list_tools st decL env).state.serverCapabilities =
      st.serverCapabilities ∧
    (Client.get_tool st name decL env).state.serverCapabilities =
      st.serverCapabilities ∧
    (Client.read_resource st uri decR env).state.serverCapabilities =
      st.serverCapabilities ∧
    (Client.list_resources st decS env).state.serverCapabilities =
      st.serverCapabilities := by
  refine ⟨?_, ?_, ?_, ?_, ?_, ?_⟩ <;>
    simp [request_state, call_tool_state, list_tools_state, get_tool_state,
      read_resource_state, list_resources_state]

/-- C3: when the response matching this call's id carries an `error`
field, the call fails with a Protocol error reproducing the peer's code,
message and data verbatim — whatever discardable traffic preceded it. -/
theorem request_matching_error_response {V C : Type} (st : ClientState C)
    (method : String) (params : Option V) (env : ReqEnv V)
    (pre post : List (QEvent V)) (t : Nat) (r : Response V)
    (e : ErrorObject V)
    (hsend : env.sendErr = none)
    (hev : env.events = pre ++ QEvent.arrive t (Message.response r) :: post)
    (hpre : ∀ ev ∈ pre, DiscardableFor (st.counter + 1) ev)
    (ht : t < requestTimeoutSecs)
    (hid : r.id = st.counter + 1)
    (herr : r.error = some e) :
    (Client.request st method params env).result =
      .error (.Protocol e.code e.message e.data) := by
  rw [request_result_of_sendOk st method params env hsend, hev]
  exact requestWait_first_match hpre ht (by simp [handleMessage, hid, herr])

/-- C9: on a matching response carrying both an `error` field and a
`result` field, the error branch wins: `request` fails with the Protocol
error built from the `error` field and the `result` value is discarded. -/
theorem request_error_field_takes_precedence {V C : Type}
    (st : ClientState C) (method : String) (params : Option V)
    (env : ReqEnv V) (pre post : List (QEvent V)) (t : Nat) (r : Response V)
    (e : ErrorObject V) (v : V)
    (hsend : env.sendErr = none)
    (hev : env.events = pre ++ QEvent.arrive t (Message.response r) :: post)
    (hpre : ∀ ev ∈ pre, DiscardableFor (st.counter + 1) ev)
    (ht : t < requestTimeoutSecs)
    (hid : r.id = st.counter + 1)
    (herr : r.error = some e)
    (hres : r.result = some v) :
    (Client.request st method params env).result =
      .error (.Protocol e.code e.message e.data) := by
  rw [request_result_of_sendOk st method params env hsend, hev]
  exact requestWait_first_match hpre ht (by simp [handleMessage, hid, herr])

/-- C4: a `request` call whose queue yields nothing that can resolve it
before the 30-second deadline — every arrival within the deadline is
unrelated to its id, and any closure is at or past the deadline — fails
with the timeout error whose message names the requested method. -/
theorem request_times_out_naming_method {V C : Type} (st : ClientState C)
    (method : String) (params : Option V) (env : ReqEnv V)
    (hsend : env.sendErr = none)
    (h : ∀ e ∈ env.events, NonResolvingFor (st.counter + 1) e) :
    (Client.request st method params env).result =
      .error (.Other ("Request to '" ++ method ++ "' timed out after 30 seconds")) := by
  rw [request_result_of_sendOk st method params env hsend]
  exact requestWait_times_out h

/-- C7: a `call_tool` invocation whose deserialized result has the error
flag set fails, and the failure message carries every textual content
segment of the result, newline-joined, in the segments' original order
(`textSegments` is the in-order filter of the `Text` segments). -/
theorem call_tool_error_flag_aggregates_text {V C : Type}
    (st : ClientState C) (name : String) (args : V)
    (dec : V → Option CallToolResult) (env : ReqEnv V) (v : V)
    (tr : CallToolResult)
    (hreq : (Client.request st "tools/call" (some args) env).result = .ok v)
    (hdec : dec v = some tr)
    (herr : tr.is_error = true) :
    (Client.call_tool st name args dec env).result =
      .error (.Other ("Tool '" ++ name ++ "' execution failed: "
        ++ String.intercalate "\n" (textSegments tr.content))) := by
  simp [Client.call_tool, hreq, hdec, herr]

theorem initialize_of_request_error {V C : Type} (st : ClientState C)
    (p : V) (dec : V → Option (InitializeResult C)) (env : InitEnv V)
    (e : Error V)
    (h : (Client.request st "initialize" (some p) env.reqEnv).result = .error e) :
    Client.initializeHandshake st p dec env =
      ⟨(Client.request st "initialize" (some p) env.reqEnv).state,
        (Client.request st "initialize" (some p) env.reqEnv).sent,
        .error e⟩ := by
  simp [Client.initializeHandshake, h]

theorem initialize_of_ok_components {V C : Type} (st : ClientState C)
    (p : V) (dec : V → Option (InitializeResult C)) (env : InitEnv V)
    (v : V) (ir : InitializeResult C)
    (hv : (Client.request st "initialize" (some p) env.reqEnv).result = .ok v)
    (hd : dec v = some ir)
    (hn : env.notifySendErr = none) :
    Client.initializeHandshake st p dec env =
      ⟨{ (Client.request st "initialize" (some p) env.reqEnv).state with
          serverCapabilities := some ir.capabilities },
        (Client.request st "initialize" (some p) env.reqEnv).sent ++
          [Message.notification { method := "notifications/initialized", params := none }],
        .ok ir⟩ := by
  simp [Client.initializeHandshake, Client.notify, hv, hd, hn]

theorem initialize_ok_inversion {V C : Type} (st : ClientState C) (p : V)
    (dec : V → Option (InitializeResult C)) (env : InitEnv V)
    (ir : InitializeResult C)
    (h : (Client.initializeHandshake st p dec env).result = .ok ir) :
    ∃ v, (Client.request st "initialize" (some p) env.reqEnv).result = .ok v ∧
      dec v = some ir ∧ env.notifySendErr = none := by
  revert h
  simp only [Client.initializeHandshake]
  cases hv : (Client.request st "initialize" (some p) env.reqEnv).result with
  | error e => intro h; simp at h
  | ok v =>
    cases hd : dec v with
    | none =>
      intro h
      simp [hd] at h
    | some ir2 =>
      cases hn : env.notifySendErr with
      | some e =>
        intro h
        simp [hd, Client.notify, hn] at h
      | none =>
        intro h
        simp [hd, Client.notify, hn] at h
        exact ⟨v, rfl, by rw [hd, h], rfl⟩

/-- C5: a successful `initialize` hands exactly two envelopes to the
transport, in order: its own `initialize` request, then the
`notifications/initialized` notification; and whenever the inner
`initialize` request fails, no notification is ever sent. -/
theorem initialize_sends_request_then_notification {V C : Type}
    (st : ClientState C) (p : V) (dec : V → Option (InitializeResult C))
    (env : InitEnv V) :
    (∀ ir, (Client.initializeHandshake st p dec env).result = .ok ir →
      (Client.initializeHandshake st p dec env).sent =
        [Message.request { method := "initialize", params := some p, id := st.counter + 1 },
          Message.notification { method := "notifications/initialized", params := none }]) ∧
    (∀ e, (Client.request st "initialize" (some p) env.reqEnv).result = .error e →
      ∀ n, Message.notification n ∉ (Client.initializeHandshake st p dec env).sent) := by
  constructor
  · intro ir h
    obtain ⟨v, hv, hd, hn⟩ := initialize_ok_inversion st p dec env ir h
    rw [initialize_of_ok_components st p dec env v ir hv hd hn]
    simp [request_sent]
  · intro e he n
    rw [initialize_of_request_error st p dec env e he]
    simp [request_sent]

/-- C6: before any handshake the capability cache reads absent; after a
successful `initialize` it reads exactly the ServerCapabilities contained
in that handshake's InitializeResult (the theorem is stated over an
arbitrary prior state, so it also gives the most recent handshake's result
on re-initialization). -/
theorem capabilities_absent_then_cached {V C : Type} (st : ClientState C)
    (p : V) (dec : V → Option (InitializeResult C)) (env : InitEnv V) :
    Client.capabilities (Client.new C) = none ∧
    ∀ ir, (Client.initializeHandshake st p dec env).result = .ok ir →
      Client.capabilities (Client.initializeHandshake st p dec env).state =
        some ir.capabilities := by
  refine ⟨rfl, ?_⟩
  intro ir h
  obtain ⟨v, hv, hd, hn⟩ := initialize_ok_inversion st p dec env ir h
  rw [initialize_of_ok_components st p dec env v ir hv hd hn]
  rfl

/-- C1: over any sequence of N sequential `request` calls, each call whose
queue delivers — in any order, after any discardable junk (non-matching
responses, notifications, peer requests, all within the deadline) — the
response bearing the id that call sent, returns exactly the value carried
by that response. -/
theorem sequential_requests_correlate {V C : Type} (st : ClientState C)
    (calls : List (ReqCall V)) (vals : List V)
    (hlen : calls.length = vals.length)
    (h : ∀ k (hk : k < calls.length) (hv : k < vals.length),
      MatchedCall (st.counter + 1 + (k : Int)) (vals.get ⟨k, hv⟩)
        (calls.get ⟨k, hk⟩)) :
    (runRequests st calls).2.map (fun o => o.2) = vals.map Except.ok := by
  induction calls generalizing st vals with
  | nil =>
    cases vals with
    | nil => rfl
    | cons v vs => simp at hlen
  | cons c cs ih =>
    cases vals with
    | nil => simp at hlen
    | cons v vs =>
      have h0 := h 0 (by simp) (by simp)
      simp only [Nat.cast_zero, add_zero, List.get] at h0
      obtain ⟨hsend, pre, t, post, hev, ht, hpre⟩ := h0
      have hres : (Client.request st c.method c.params c.env).result =
          Except.ok v := by
        rw [request_result_of_sendOk st c.method c.params c.env hsend, hev]
        exact requestWait_first_match hpre ht (by simp [handleMessage])
      have hstate := request_state st c.method c.params c.env
      have hrest := ih (Client.request st c.method c.params c.env).state vs
        (by simpa using hlen)
        (fun k hk hv => by
          have hk1 : k + 1 < (c :: cs).length := by
            simpa using Nat.succ_lt_succ hk
          have hv1 : k + 1 < (v :: vs).length := by
            simpa using Nat.succ_lt_succ hv
          have hx := h (k + 1) hk1 hv1
          have harith : st.counter + 1 + ((k : Int) + 1) =
              (Client.request st c.method c.params c.env).state.counter + 1 +
                (k : Int) := by
            rw [hstate]
            ring
          simp only [Nat.cast_add, Nat.cast_one, harith, List.get] at hx
          exact hx)
      rw [runRequests_cons]
      simp only [List.map_cons, hres, hrest]

/-! Concrete scenarios, instantiating the abstract value type `V` with
`Nat` and the abstract `ServerCapabilities` type `C` with `Nat`. -/

/-- First call of a two-call sequential scenario: its queue delivers a
notification, a response for a foreign id, its own response (id 1, result
10), then late noise. -/
def wCall1 : ReqCall Nat where
  method := "tools/list"
  params := none
  env :=
    { sendErr := none,
      events := [
        QEvent.arrive 0 (Message.notification { method := "progress", params := none }),
        QEvent.arrive 1 (Message.response { id := 7, result := some 99, error := none }),
        QEvent.arrive 2 (Message.response { id := 1, result := some 10, error := none }),
        QEvent.arrive 3 (Message.notification { method := "late", params := none })] }

/-- Second call of the scenario: a peer request, then its own response
(id 2, result 20). -/
def wCall2 : ReqCall Nat where
  method := "resources/list"
  params := none
  env :=
    { sendErr := none,
      events := [
        QEvent.arrive 0 (Message.request { method := "peer/ping", params := none, id := 42 }),
        QEvent.arrive 1 (Message.response { id := 2, result := some 20, error := none })] }

theorem sequential_requests_correlate_witness :
    (runRequests (Client.new Nat) [wCall1, wCall2]).2.map (fun o => o.2) =
      [Except.ok 10, Except.ok 20] := by
  apply sequential_requests_correlate (Client.new Nat) [wCall1, wCall2] [10, 20] rfl
  have m1 : MatchedCall ((Client.new Nat).counter + 1 + ((0 : Nat) : Int)) 10 wCall1 :=
    ⟨rfl,
      [QEvent.arrive 0 (Message.notification { method := "progress", params := none }),
        QEvent.arrive 1 (Message.response { id := 7, result := some 99, error := none })],
      2,
      [QEvent.arrive 3 (Message.notification { method := "late", params := none })],
      by decide, by decide, by decide⟩
  have m2 : MatchedCall ((Client.new Nat).counter + 1 + ((1 : Nat) : Int)) 20 wCall2 :=
    ⟨rfl,
      [QEvent.arrive 0 (Message.request { method := "peer/ping", params := none, id := 42 })],
      1, [], by decide, by decide, by decide⟩
  intro k hk hv
  match k with
  | 0 => exact m1
  | 1 => exact m2
  | n + 2 =>
    exact absurd hk (by simp only [List.length_cons, List.length_nil]; omega)

/-- Environment delivering noise and then a matching response whose
`error` field carries code -32601. -/
def wEnvC3 : ReqEnv Nat where
  sendErr := none
  events := [
    QEvent.arrive 0 (Message.notification { method := "noise", params := none }),
    QEvent.arrive 1 (Message.response { id := 1, result := none, error := some { code := -32601, message := "method not found", data := none } })]

theorem request_matching_error_response_witness :
    (Client.request (Client.new Nat) "tools/list" none wEnvC3).result =
      .error (.Protocol (-32601) "method not found" none) :=
  request_matching_error_response (Client.new Nat) "tools/list" none wEnvC3
    [QEvent.arrive 0 (Message.notification { method := "noise", params := none })]
    [] 1
    { id := 1, result := none, error := some { code := -32601, message := "method not found", data := none } }
    { code := -32601, message := "method not found", data := none }
    rfl rfl (by decide) (by decide) (by decide) rfl

/-- Environment delivering a matching response carrying both an `error`
field and a `result` value. -/
def wEnvC9 : ReqEnv Nat where
  sendErr := none
  events := [
    QEvent.arrive 0 (Message.response { id := 1, result := some 55, error := some { code := -32000, message := "server error", data := some 7 } })]

theorem request_error_field_takes_precedence_witness :
    (Client.request (Client.new Nat) "tools/call" none wEnvC9).result =
      .error (.Protocol (-32000) "server error" (some 7)) :=
  request_error_field_takes_precedence (Client.new Nat) "tools/call" none wEnvC9
    [] [] 0
    { id := 1, result := some 55, error := some { code := -32000, message := "server error", data := some 7 } }
    { code := -32000, message := "server error", data := some 7 } 55
    rfl rfl (by decide) (by decide) (by decide) rfl rfl

/-- Environment in which nothing can resolve the wait for id 1 before the
deadline: early noise, the matching response only at t = 31, closure at
t = 40. -/
def wEnvC4 : ReqEnv Nat where
  sendErr := none
  events := [
    QEvent.arrive 5 (Message.notification { method := "noise", params := none }),
    QEvent.arrive 31 (Message.response { id := 1, result := some 3, error := none }),
    QEvent.close 40]

theorem request_times_out_naming_method_witness :
    (Client.request (Client.new Nat) "tools/list" none wEnvC4).result =
      .error (.Other "Request to 'tools/list' timed out after 30 seconds") :=
  request_times_out_naming_method (Client.new Nat) "tools/list" none wEnvC4
    rfl (by decide)

/-- Handshake environment: the initialize response (id 1, result 5)
arrives immediately and the notification send succeeds. -/
def wInitEnv : InitEnv Nat where
  reqEnv :=
    { sendErr := none,
      events := [QEvent.arrive 0 (Message.response { id := 1, result := some 5, error := none })] }
  notifySendErr := none

/-- Handshake environment in which the initialize request's transport send
fails. -/
def wInitEnvFail : InitEnv Nat where
  reqEnv := { sendErr := some "boom", events := [] }
  notifySendErr := none

/-- Decoder reading the raw value as the negotiated capabilities. -/
def wDec : Nat → Option (InitializeResult Nat) := fun v =>
  some { capabilities := v }

theorem initialize_sends_request_then_notification_witness :
    (Client.initializeHandshake (Client.new Nat) 0 wDec wInitEnv).sent =
      [Message.request { method := "initialize", params := some 0, id := 1 },
        Message.notification { method := "notifications/initialized", params := none }] ∧
    Message.notification { method := "notifications/initialized", params := none } ∉
      (Client.initializeHandshake (Client.new Nat) 0 wDec wInitEnvFail).sent := by
  constructor
  · have h := (initialize_sends_request_then_notification
      (Client.new Nat) 0 wDec wInitEnv).1 { capabilities := 5 } rfl
    simpa using h
  · exact (initialize_sends_request_then_notification
      (Client.new Nat) 0 wDec wInitEnvFail).2 (.Transport "boom") rfl
      { method := "notifications/initialized", params := none }

theorem capabilities_absent_then_cached_witness :
    Client.capabilities (Client.new Nat) = none ∧
    Client.capabilities (Client.initializeHandshake (Client.new Nat) 0 wDec wInitEnv).state =
      some 5 := by
  refine ⟨(capabilities_absent_then_cached (Client.new Nat) 0 wDec wInitEnv).1, ?_⟩
  have h := (capabilities_absent_then_cached (Client.new Nat) 0 wDec wInitEnv).2
    { capabilities := 5 } rfl
  simpa using h

/-- Decoder returning a tool result with the error flag set and mixed
content: two text segments around a non-textual one. -/
def wDecTool : Nat → Option CallToolResult := fun _ =>
  some { content := [MessageContent.text "boom", MessageContent.other "image", MessageContent.text "again"], is_error := true }

/-- Environment delivering the tools/call response (id 1, result 0). -/
def wEnvC7 : ReqEnv Nat where
  sendErr := none
  events := [QEvent.arrive 0 (Message.response { id := 1, result := some 0, error := none })]

theorem call_tool_error_flag_aggregates_text_witness :
    (Client.call_tool (Client.new Nat) "adder" 0 wDecTool wEnvC7).result =
      .error (.Other "Tool 'adder' execution failed: boom\nagain") := by
  have h := call_tool_error_flag_aggregates_text (Client.new Nat) "adder" 0
    wDecTool wEnvC7 0
    { content := [MessageContent.text "boom", MessageContent.other "image", MessageContent.text "again"], is_error := true }
    rfl rfl rfl
  exact h

end MCPClient
